import Mathlib

/-!
Verification of the soil-data collection sketch (`coleta_dados_solo.ino`).

The program buffers simulated soil samples (temperature, humidity, salinity)
in a singly linked list, and every 16 samples excludes the minimum- and
maximum-temperature entries, averages the rest and prints an irrigation
decision.  We embed the sketch shallowly: `float` becomes `ℚ`, the linked
list becomes a `List SampleData` whose head is `dataListHead` (index 0 is
the list head, the most recently prepended sample), and node identity
becomes the index into that list.  `rand()` is modelled by passing the raw
pseudo-random value as a `Nat` argument.
-/

/-- Mirrors `struct SampleData { float temperature; float humidity; float salinity; }`. -/
structure SampleData where
  temperature : ℚ
  humidity : ℚ
  salinity : ℚ
deriving DecidableEq, Repr

/-- Placeholder sample used for out-of-range indexing; every access we reason
about is in range, so its value is irrelevant. -/
def defaultSample : SampleData := ⟨0, 0, 0⟩

/-- Sample at index `j` of the buffered list (index 0 = list head). -/
def sampleAt (l : List SampleData) (j : Nat) : SampleData :=
  l.getD j defaultSample

/-- Mirrors `const int SAMPLES_PER_CYCLE = 16`. -/
def SAMPLES_PER_CYCLE : Nat := 16

/-- Mirrors `const unsigned long SAMPLE_INTERVAL = 10000`. -/
def SAMPLE_INTERVAL : Nat := 10000

/-- Mirrors `readSimulatedTemperature()`: `15.0 + (rand() % 200) / 10.0`,
with the `rand()` result passed in as `r`. -/
def readSimulatedTemperature (r : Nat) : ℚ :=
  15 + ((r % 200 : Nat) : ℚ) / 10

/-- Mirrors `readSimulatedHumidity()`: `30.0 + (rand() % 600) / 10.0`. -/
def readSimulatedHumidity (r : Nat) : ℚ :=
  30 + ((r % 600 : Nat) : ℚ) / 10

/-- Mirrors `readSimulatedSalinity()`: `0.5 + (rand() % 35) / 10.0`. -/
def readSimulatedSalinity (r : Nat) : ℚ :=
  1 / 2 + ((r % 35 : Nat) : ℚ) / 10

set_option linter.unusedVariables false in
/-- Mirrors `decideIrrigation(float temp, float hum, float sal)`; the `temp`
argument is accepted but never read, as in the source. -/
def decideIrrigation (temp hum sal : ℚ) : String :=
  if hum < 45 then
    if sal > 3 then
      "NAO IRRIGAR (Risco de Salinidade Alta)"
    else
      "IRRIGAR (Umidade Baixa)"
  else if hum > 80 then
    "NAO IRRIGAR (Umidade Alta)"
  else
    "NAO IRRIGAR (Nivel Ideal)"

/-- The global mutable state of the sketch: `dataListHead`, `sampleCount`,
`lastSampleTime`. -/
structure SoilState where
  dataListHead : List SampleData
  sampleCount : Nat
  lastSampleTime : Nat
deriving DecidableEq, Repr

/-- Mirrors `collectSample()`: reads the three simulated sensors (the three
`rand()` draws are passed as `r1 r2 r3`), prepends the new node at the list
head and increments `sampleCount`. -/
def collectSample (s : SoilState) (r1 r2 r3 : Nat) : SoilState :=
  { s with
    dataListHead :=
      ⟨readSimulatedTemperature r1, readSimulatedHumidity r2,
        readSimulatedSalinity r3⟩ :: s.dataListHead
    sampleCount := s.sampleCount + 1 }

/-- Mirrors `clearList()`: frees every node, resets the head pointer and the
counter. -/
def clearList (s : SoilState) : SoilState :=
  { s with dataListHead := [], sampleCount := 0 }

/-- One iteration of the min/max scan of `processAndReportData`: walk the
remaining `fuel` nodes starting at index `i`, keeping the indices `mn`/`mx`
of the tracked `minNode`/`maxNode`; the comparisons are the strict
`current->data.temperature < minNode->data.temperature` and
`... > maxNode->data.temperature` of the source. -/
def findExtremesAux (l : List SampleData) : Nat → Nat → Nat → Nat → Nat × Nat
  | 0, _, mn, mx => (mn, mx)
  | fuel + 1, i, mn, mx =>
    let t := (sampleAt l i).temperature
    let mn' := if t < (sampleAt l mn).temperature then i else mn
    let mx' := if t > (sampleAt l mx).temperature then i else mx
    findExtremesAux l fuel (i + 1) mn' mx'

/-- The full min/max scan: `minNode` and `maxNode` start at `dataListHead`
(index 0) and the loop visits every node once. -/
def findExtremes (l : List SampleData) : Nat × Nat :=
  findExtremesAux l l.length 0 0 0

/-- The second loop of `processAndReportData`: walk the list accumulating
`(sumTemp, sumHum, sumSal, remainingCount)`, skipping the nodes whose index
is `mn` or `mx` (`current != minNode && current != maxNode`, identity
modelled as index). -/
def sumSkip : List SampleData → Nat → Nat → Nat → ℚ × ℚ × ℚ × Nat → ℚ × ℚ × ℚ × Nat
  | [], _, _, _, acc => acc
  | x :: xs, i, mn, mx, (st, sh, ss, c) =>
    if i ≠ mn ∧ i ≠ mx then
      sumSkip xs (i + 1) mn mx (st + x.temperature, sh + x.humidity, ss + x.salinity, c + 1)
    else
      sumSkip xs (i + 1) mn mx (st, sh, ss, c)

/-- The record handed to `printReport`: the three averages, the decision
string and `remainingCount`. -/
structure Report where
  avgTemp : ℚ
  avgHum : ℚ
  avgSal : ℚ
  decision : String
  remainingCount : Nat
deriving DecidableEq, Repr

/-- Mirrors `processAndReportData()`.  The early return on
`sampleCount != SAMPLES_PER_CYCLE` yields no report; otherwise the scan, the
skipping sums, the three divisions by `remainingCount` and the decision are
performed.  The function writes no global, so the returned state is the
input state. -/
def processAndReportData (s : SoilState) : SoilState × Option Report :=
  if s.sampleCount ≠ SAMPLES_PER_CYCLE then
    (s, none)
  else
    let mnmx := findExtremes s.dataListHead
    let sums := sumSkip s.dataListHead 0 mnmx.1 mnmx.2 (0, 0, 0, 0)
    let remainingCount := sums.2.2.2
    let avgTemp := sums.1 / (remainingCount : ℚ)
    let avgHum := sums.2.1 / (remainingCount : ℚ)
    let avgSal := sums.2.2.1 / (remainingCount : ℚ)
    (s, some ⟨avgTemp, avgHum, avgSal, decideIrrigation avgTemp avgHum avgSal, remainingCount⟩)

/-- States reachable by the sketch: the initial globals, and then any
interleaving of `collectSample`, `processAndReportData`, `clearList` and the
`lastSampleTime := millis()` update done by `loop()`. -/
inductive Reachable : SoilState → Prop
  | init : Reachable ⟨[], 0, 0⟩
  | collect {s : SoilState} (r1 r2 r3 : Nat) :
      Reachable s → Reachable (collectSample s r1 r2 r3)
  | process {s : SoilState} :
      Reachable s → Reachable (processAndReportData s).1
  | clear {s : SoilState} :
      Reachable s → Reachable (clearList s)
  | tick {s : SoilState} (t : Nat) :
      Reachable s → Reachable { s with lastSampleTime := t }

/-- Index set of the samples that survive the trimming: all indices except
the tracked min and max nodes. -/
def remainingIdx (l : List SampleData) : Finset Nat :=
  Finset.range l.length \ {(findExtremes l).1, (findExtremes l).2}

/-- Field average over the surviving samples, as computed by the three
divisions of `processAndReportData`. -/
def avgOf (l : List SampleData) (f : SampleData → ℚ) : ℚ :=
  Finset.sum (remainingIdx l) (fun j => f (sampleAt l j)) / (((remainingIdx l).card : Nat) : ℚ)

/-- Invariant of the min half of the scan: if `mn` is the first index
attaining the minimum temperature among indices `< i`, then the final `mn`
is the first index attaining the minimum over the whole list. -/
lemma findExtremesAux_min_spec (l : List SampleData) :
    ∀ fuel i mn mx, i + fuel = l.length → mn < l.length →
      (∀ j, j < i → (sampleAt l mn).temperature ≤ (sampleAt l j).temperature) →
      (∀ j, j < mn → (sampleAt l mn).temperature < (sampleAt l j).temperature) →
      (findExtremesAux l fuel i mn mx).1 < l.length ∧
      (∀ j, j < l.length →
        (sampleAt l (findExtremesAux l fuel i mn mx).1).temperature ≤
          (sampleAt l j).temperature) ∧
      (∀ j, j < (findExtremesAux l fuel i mn mx).1 →
        (sampleAt l (findExtremesAux l fuel i mn mx).1).temperature <
          (sampleAt l j).temperature) := by
  intro fuel
  induction fuel with
  | zero =>
    intro i mn mx hi hmn h2 h3
    simp only [findExtremesAux]
    exact ⟨hmn, fun j hj => h2 j (by omega), h3⟩
  | succ fuel ih =>
    intro i mn mx hi hmn h2 h3
    simp only [findExtremesAux]
    by_cases hc : (sampleAt l i).temperature < (sampleAt l mn).temperature
    · rw [if_pos hc]
      refine ih (i + 1) i _ (by omega) (by omega) ?_ ?_
      · intro j hj
        rcases Nat.lt_succ_iff_lt_or_eq.mp hj with hj' | hj'
        · exact le_of_lt (lt_of_lt_of_le hc (h2 j hj'))
        · exact le_of_eq (by rw [hj'])
      · intro j hj
        exact lt_of_lt_of_le hc (h2 j hj)
    · rw [if_neg hc]
      refine ih (i + 1) mn _ (by omega) hmn ?_ h3
      intro j hj
      rcases Nat.lt_succ_iff_lt_or_eq.mp hj with hj' | hj'
      · exact h2 j hj'
      · rw [hj']
        exact le_of_not_lt hc

/-- Invariant of the max half of the scan: symmetric to
`findExtremesAux_min_spec`. -/
lemma findExtremesAux_max_spec (l : List SampleData) :
    ∀ fuel i mn mx, i + fuel = l.length → mx < l.length →
      (∀ j, j < i → (sampleAt l j).temperature ≤ (sampleAt l mx).temperature) →
      (∀ j, j < mx → (sampleAt l j).temperature < (sampleAt l mx).temperature) →
      (findExtremesAux l fuel i mn mx).2 < l.length ∧
      (∀ j, j < l.length →
        (sampleAt l j).temperature ≤
          (sampleAt l (findExtremesAux l fuel i mn mx).2).temperature) ∧
      (∀ j, j < (findExtremesAux l fuel i mn mx).2 →
        (sampleAt l j).temperature <
          (sampleAt l (findExtremesAux l fuel i mn mx).2).temperature) := by
  intro fuel
  induction fuel with
  | zero =>
    intro i mn mx hi hmx h2 h3
    simp only [findExtremesAux]
    exact ⟨hmx, fun j hj => h2 j (by omega), h3⟩
  | succ fuel ih =>
    intro i mn mx hi hmx h2 h3
    simp only [findExtremesAux]
    by_cases hc : (sampleAt l i).temperature > (sampleAt l mx).temperature
    · rw [if_pos hc]
      refine ih (i + 1) _ i (by omega) (by omega) ?_ ?_
      · intro j hj
        rcases Nat.lt_succ_iff_lt_or_eq.mp hj with hj' | hj'
        · exact le_of_lt (lt_of_le_of_lt (h2 j hj') hc)
        · exact le_of_eq (by rw [hj'])
      · intro j hj
        exact lt_of_le_of_lt (h2 j hj) hc
    · rw [if_neg hc]
      refine ih (i + 1) _ mx (by omega) hmx ?_ h3
      intro j hj
      rcases Nat.lt_succ_iff_lt_or_eq.mp hj with hj' | hj'
      · exact h2 j hj'
      · rw [hj']
        exact le_of_not_lt hc

/-- Full characterisation of the scan on a non-empty list: the returned pair
is in range, the first component is the first index attaining the minimum
temperature, the second the first index attaining the maximum. -/
lemma findExtremes_spec (l : List SampleData) (h : l ≠ []) :
    (findExtremes l).1 < l.length ∧ (findExtremes l).2 < l.length ∧
    (∀ j, j < l.length →
      (sampleAt l (findExtremes l).1).temperature ≤ (sampleAt l j).temperature) ∧
    (∀ j, j < (findExtremes l).1 →
      (sampleAt l (findExtremes l).1).temperature < (sampleAt l j).temperature) ∧
    (∀ j, j < l.length →
      (sampleAt l j).temperature ≤ (sampleAt l (findExtremes l).2).temperature) ∧
    (∀ j, j < (findExtremes l).2 →
      (sampleAt l j).temperature < (sampleAt l (findExtremes l).2).temperature) := by
  have hlen : 0 < l.length := List.length_pos.mpr h
  have hmin := findExtremesAux_min_spec l l.length 0 0 0 (by omega) hlen
    (fun j hj => by omega) (fun j hj => by omega)
  have hmax := findExtremesAux_max_spec l l.length 0 0 0 (by omega) hlen
    (fun j hj => by omega) (fun j hj => by omega)
  exact ⟨hmin.1, hmax.1, hmin.2.1, hmin.2.2, hmax.2.1, hmax.2.2⟩

@[simp] lemma sampleAt_cons_zero (x : SampleData) (xs : List SampleData) :
    sampleAt (x :: xs) 0 = x := rfl

@[simp] lemma sampleAt_cons_succ (x : SampleData) (xs : List SampleData) (j : Nat) :
    sampleAt (x :: xs) (j + 1) = sampleAt xs j := rfl

/-- Peeling the head element off an index-masked field sum. -/
lemma sum_shift (x : SampleData) (xs : List SampleData) (i mn mx : Nat)
    (g : SampleData → ℚ) :
    Finset.sum (Finset.range (xs.length + 1))
        (fun j => if i + j ≠ mn ∧ i + j ≠ mx then g (sampleAt (x :: xs) j) else 0) =
      (if i ≠ mn ∧ i ≠ mx then g x else 0) +
      Finset.sum (Finset.range xs.length)
        (fun j => if (i + 1) + j ≠ mn ∧ (i + 1) + j ≠ mx then g (sampleAt xs j) else 0) := by
  rw [Finset.sum_range_succ', add_comm]
  congr 1
  apply Finset.sum_congr rfl
  intro j _
  rw [show i + (j + 1) = (i + 1) + j from by omega, sampleAt_cons_succ]

/-- Peeling the first index off the index-masked count. -/
lemma count_shift (n i mn mx : Nat) :
    Finset.sum (Finset.range (n + 1))
        (fun j => if i + j ≠ mn ∧ i + j ≠ mx then 1 else 0) =
      (if i ≠ mn ∧ i ≠ mx then 1 else 0) +
      Finset.sum (Finset.range n)
        (fun j => if (i + 1) + j ≠ mn ∧ (i + 1) + j ≠ mx then 1 else 0) := by
  rw [Finset.sum_range_succ', add_comm]
  congr 1
  apply Finset.sum_congr rfl
  intro j _
  rw [show i + (j + 1) = (i + 1) + j from by omega]

/-- Characterisation of the skipping loop: starting from an accumulator, it
adds the field sums and the count over the indices of the list that avoid
`mn` and `mx` (indices offset by the starting position `i`). -/
lemma sumSkip_spec (xs : List SampleData) :
    ∀ (i mn mx : Nat) (st sh ss : ℚ) (c : Nat),
      sumSkip xs i mn mx (st, sh, ss, c) =
        (st + Finset.sum (Finset.range xs.length)
            (fun j => if i + j ≠ mn ∧ i + j ≠ mx then (sampleAt xs j).temperature else 0),
         sh + Finset.sum (Finset.range xs.length)
            (fun j => if i + j ≠ mn ∧ i + j ≠ mx then (sampleAt xs j).humidity else 0),
         ss + Finset.sum (Finset.range xs.length)
            (fun j => if i + j ≠ mn ∧ i + j ≠ mx then (sampleAt xs j).salinity else 0),
         c + Finset.sum (Finset.range xs.length)
            (fun j => if i + j ≠ mn ∧ i + j ≠ mx then 1 else 0)) := by
  induction xs with
  | nil =>
    intro i mn mx st sh ss c
    simp [sumSkip]
  | cons x xs ih =>
    intro i mn mx st sh ss c
    simp only [List.length_cons, sum_shift, count_shift]
    by_cases hc : i ≠ mn ∧ i ≠ mx
    · rw [show sumSkip (x :: xs) i mn mx (st, sh, ss, c) =
          sumSkip xs (i + 1) mn mx
            (st + x.temperature, sh + x.humidity, ss + x.salinity, c + 1) from by
        simp only [sumSkip]; rw [if_pos hc]]
      rw [ih, if_pos hc, if_pos hc, if_pos hc, if_pos hc]
      refine Prod.ext ?_ (Prod.ext ?_ (Prod.ext ?_ ?_)) <;> simp <;> try ring
    · rw [show sumSkip (x :: xs) i mn mx (st, sh, ss, c) =
          sumSkip xs (i + 1) mn mx (st, sh, ss, c) from by
        simp only [sumSkip]; rw [if_neg hc]]
      rw [ih, if_neg hc, if_neg hc, if_neg hc, if_neg hc]
      refine Prod.ext ?_ (Prod.ext ?_ (Prod.ext ?_ ?_)) <;> simp

/-- An `ite`-masked sum over `range n` is the plain sum over the index set
with the two skipped indices removed. -/
lemma sum_ite_eq_sdiff (n mn mx : Nat) (f : Nat → ℚ) :
    Finset.sum (Finset.range n) (fun j => if j ≠ mn ∧ j ≠ mx then f j else 0) =
      Finset.sum (Finset.range n \ {mn, mx}) f := by
  rw [← Finset.sum_filter]
  apply Finset.sum_congr _ (fun j _ => rfl)
  ext j
  simp only [Finset.mem_filter, Finset.mem_sdiff, Finset.mem_insert, Finset.mem_singleton]
  tauto

/-- The `ite`-masked count is the cardinality of the same index set. -/
lemma count_ite_eq_sdiff (n mn mx : Nat) :
    Finset.sum (Finset.range n) (fun j => if j ≠ mn ∧ j ≠ mx then 1 else 0) =
      (Finset.range n \ {mn, mx}).card := by
  rw [← Finset.sum_filter, ← Finset.card_eq_sum_ones]
  congr 1
  ext j
  simp only [Finset.mem_filter, Finset.mem_sdiff, Finset.mem_insert, Finset.mem_singleton]
  tauto

/-- Removing two distinct in-range indices leaves `n - 2` indices. -/
lemma card_sdiff_pair {n mn mx : Nat} (hmn : mn < n) (hmx : mx < n) (hne : mn ≠ mx) :
    (Finset.range n \ {mn, mx}).card = n - 2 := by
  have hsub : ({mn, mx} : Finset Nat) ⊆ Finset.range n := by
    intro j hj
    simp only [Finset.mem_insert, Finset.mem_singleton] at hj
    rcases hj with h | h <;> simp [h, Finset.mem_range, hmn, hmx]
  rw [Finset.card_sdiff hsub, Finset.card_range,
    Finset.card_insert_of_not_mem (by simp [hne]), Finset.card_singleton]

/-- Removing one in-range index (named twice) leaves `n - 1` indices. -/
lemma card_sdiff_same {n mn : Nat} (hmn : mn < n) :
    (Finset.range n \ {mn, mn}).card = n - 1 := by
  rw [Finset.pair_eq_singleton, Finset.card_sdiff (by simp [Finset.mem_range, hmn]),
    Finset.card_range, Finset.card_singleton]

/-- Indexed sums over the whole list agree with mapped list sums. -/
lemma sum_range_sampleAt (l : List SampleData) (f : SampleData → ℚ) :
    Finset.sum (Finset.range l.length) (fun j => f (sampleAt l j)) = (l.map f).sum := by
  induction l with
  | nil => simp
  | cons x xs ih =>
    simp only [List.length_cons, Finset.sum_range_succ', sampleAt_cons_succ,
      sampleAt_cons_zero, List.map_cons, List.sum_cons, ih]
    ring

/-- When the counter is 16, `processAndReportData` emits the report whose
averages are the masked sums over the surviving indices divided by their
number. -/
lemma process_report (s : SoilState) (hcnt : s.sampleCount = 16) :
    (processAndReportData s).2 = some
      ⟨avgOf s.dataListHead SampleData.temperature,
       avgOf s.dataListHead SampleData.humidity,
       avgOf s.dataListHead SampleData.salinity,
       decideIrrigation (avgOf s.dataListHead SampleData.temperature)
         (avgOf s.dataListHead SampleData.humidity)
         (avgOf s.dataListHead SampleData.salinity),
       (remainingIdx s.dataListHead).card⟩ := by
  have hguard : ¬(s.sampleCount ≠ SAMPLES_PER_CYCLE) := by
    simp [hcnt, SAMPLES_PER_CYCLE]
  simp only [processAndReportData, if_neg hguard]
  rw [sumSkip_spec]
  simp only [Nat.zero_add, zero_add]
  rw [sum_ite_eq_sdiff, sum_ite_eq_sdiff, sum_ite_eq_sdiff, count_ite_eq_sdiff]
  simp [avgOf, remainingIdx]

/-- If a single index strictly dominates all others from below, the scan's
min component is that index. -/
lemma findExtremes_fst_of_unique (l : List SampleData) (im : Nat)
    (hne : l ≠ []) (him : im < l.length)
    (hmin : ∀ j, j < l.length → j ≠ im →
      (sampleAt l im).temperature < (sampleAt l j).temperature) :
    (findExtremes l).1 = im := by
  obtain ⟨h1, -, h3, -, -, -⟩ := findExtremes_spec l hne
  by_contra hc
  exact absurd (h3 im him) (not_le_of_lt (hmin _ h1 hc))

/-- If a single index strictly dominates all others from above, the scan's
max component is that index. -/
lemma findExtremes_snd_of_unique (l : List SampleData) (ix : Nat)
    (hne : l ≠ []) (hix : ix < l.length)
    (hmax : ∀ j, j < l.length → j ≠ ix →
      (sampleAt l j).temperature < (sampleAt l ix).temperature) :
    (findExtremes l).2 = ix := by
  obtain ⟨-, h2, -, -, h5, -⟩ := findExtremes_spec l hne
  by_contra hc
  exact absurd (h5 ix hix) (not_le_of_lt (hmax _ h2 hc))

/-- The processing step never writes the global state. -/
lemma process_fst (s : SoilState) : (processAndReportData s).1 = s := by
  unfold processAndReportData
  split <;> rfl

/-- Temperature readings stay within the simulated range. -/
lemma readSimulatedTemperature_bounds (r : Nat) :
    15 ≤ readSimulatedTemperature r ∧ readSimulatedTemperature r ≤ 35 := by
  have h : ((r % 200 : Nat) : ℚ) ≤ 199 := by
    exact_mod_cast Nat.lt_succ_iff.mp (Nat.mod_lt _ (by norm_num))
  have h0 : (0 : ℚ) ≤ ((r % 200 : Nat) : ℚ) := Nat.cast_nonneg _
  unfold readSimulatedTemperature
  constructor <;> linarith

/-- Humidity readings stay within the simulated range. -/
lemma readSimulatedHumidity_bounds (r : Nat) :
    30 ≤ readSimulatedHumidity r ∧ readSimulatedHumidity r ≤ 90 := by
  have h : ((r % 600 : Nat) : ℚ) ≤ 599 := by
    exact_mod_cast Nat.lt_succ_iff.mp (Nat.mod_lt _ (by norm_num))
  have h0 : (0 : ℚ) ≤ ((r % 600 : Nat) : ℚ) := Nat.cast_nonneg _
  unfold readSimulatedHumidity
  constructor <;> linarith

/-- Salinity readings stay within the simulated range. -/
lemma readSimulatedSalinity_bounds (r : Nat) :
    1 / 2 ≤ readSimulatedSalinity r ∧ readSimulatedSalinity r ≤ 4 := by
  have h : ((r % 35 : Nat) : ℚ) ≤ 34 := by
    exact_mod_cast Nat.lt_succ_iff.mp (Nat.mod_lt _ (by norm_num))
  have h0 : (0 : ℚ) ≤ ((r % 35 : Nat) : ℚ) := Nat.cast_nonneg _
  unfold readSimulatedSalinity
  constructor <;> linarith

example : findExtremes [⟨5, 0, 0⟩, ⟨3, 0, 0⟩, ⟨9, 0, 0⟩, ⟨3, 0, 0⟩] = (1, 2) := rfl

/-!  Claim theorems. -/

/-- Given a unique strict minimum at `im` and a unique strict maximum at
`ix`, the processing step excludes exactly those two indices and reports the
masked sums divided by 14. -/
lemma process_unique_spec (s : SoilState) (im ix : Nat)
    (hcnt : s.sampleCount = 16) (hlen : s.dataListHead.length = 16)
    (him : im < 16) (hix : ix < 16) (hne2 : im ≠ ix)
    (hmin : ∀ j, j < 16 → j ≠ im →
      (sampleAt s.dataListHead im).temperature < (sampleAt s.dataListHead j).temperature)
    (hmax : ∀ j, j < 16 → j ≠ ix →
      (sampleAt s.dataListHead j).temperature < (sampleAt s.dataListHead ix).temperature) :
    findExtremes s.dataListHead = (im, ix) ∧
    (processAndReportData s).2 = some
      ⟨Finset.sum (Finset.range 16 \ {im, ix})
          (fun j => (sampleAt s.dataListHead j).temperature) / 14,
        Finset.sum (Finset.range 16 \ {im, ix})
          (fun j => (sampleAt s.dataListHead j).humidity) / 14,
        Finset.sum (Finset.range 16 \ {im, ix})
          (fun j => (sampleAt s.dataListHead j).salinity) / 14,
        decideIrrigation
          (Finset.sum (Finset.range 16 \ {im, ix})
            (fun j => (sampleAt s.dataListHead j).temperature) / 14)
          (Finset.sum (Finset.range 16 \ {im, ix})
            (fun j => (sampleAt s.dataListHead j).humidity) / 14)
          (Finset.sum (Finset.range 16 \ {im, ix})
            (fun j => (sampleAt s.dataListHead j).salinity) / 14),
        14⟩ := by
  have hnil : s.dataListHead ≠ [] := by
    intro h
    rw [h] at hlen
    simp at hlen
  have h1 : (findExtremes s.dataListHead).1 = im :=
    findExtremes_fst_of_unique _ im hnil (by omega) (by rw [hlen]; exact hmin)
  have h2 : (findExtremes s.dataListHead).2 = ix :=
    findExtremes_snd_of_unique _ ix hnil (by omega) (by rw [hlen]; exact hmax)
  refine ⟨Prod.ext h1 h2, ?_⟩
  rw [process_report s hcnt]
  unfold avgOf remainingIdx
  rw [hlen, h1, h2, card_sdiff_pair him hix hne2]
  norm_num

/-- C1: `decideIrrigation` returns exactly one of four fixed labels in the
priority order low-humidity+high-salinity, low-humidity, high-humidity,
ideal; humidity exactly 45 or exactly 80 falls into the ideal branch, and
the temperature argument never affects the result. -/
theorem claim1_decideIrrigation_cases (temp temp2 hum sal : ℚ) :
    (hum < 45 → 3 < sal →
      decideIrrigation temp hum sal = "NAO IRRIGAR (Risco de Salinidade Alta)") ∧
    (hum < 45 → sal ≤ 3 →
      decideIrrigation temp hum sal = "IRRIGAR (Umidade Baixa)") ∧
    (80 < hum → decideIrrigation temp hum sal = "NAO IRRIGAR (Umidade Alta)") ∧
    (45 ≤ hum → hum ≤ 80 →
      decideIrrigation temp hum sal = "NAO IRRIGAR (Nivel Ideal)") ∧
    decideIrrigation temp 45 sal = "NAO IRRIGAR (Nivel Ideal)" ∧
    decideIrrigation temp 80 sal = "NAO IRRIGAR (Nivel Ideal)" ∧
    decideIrrigation temp hum sal = decideIrrigation temp2 hum sal ∧
    (decideIrrigation temp hum sal = "NAO IRRIGAR (Risco de Salinidade Alta)" ∨
     decideIrrigation temp hum sal = "IRRIGAR (Umidade Baixa)" ∨
     decideIrrigation temp hum sal = "NAO IRRIGAR (Umidade Alta)" ∨
     decideIrrigation temp hum sal = "NAO IRRIGAR (Nivel Ideal)") := by
  refine ⟨fun h1 h2 => ?_, fun h1 h2 => ?_, fun h1 => ?_, fun h1 h2 => ?_, ?_, ?_, ?_, ?_⟩
  · simp only [decideIrrigation]
    rw [if_pos h1, if_pos h2]
  · simp only [decideIrrigation]
    rw [if_pos h1, if_neg (not_lt_of_le h2)]
  · simp only [decideIrrigation]
    rw [if_neg (by intro h; linarith), if_pos h1]
  · simp only [decideIrrigation]
    rw [if_neg (not_lt_of_le h1), if_neg (not_lt_of_le h2)]
  · simp only [decideIrrigation]
    rw [if_neg (by norm_num), if_neg (by norm_num)]
  · simp only [decideIrrigation]
    rw [if_neg (by norm_num), if_neg (by norm_num)]
  · rfl
  · simp only [decideIrrigation]
    split_ifs <;> tauto

/-- Witness for C1 at the spec's own test point (humidity 40, salinity 3.5). -/
theorem claim1_decideIrrigation_cases_witness :
    decideIrrigation 20 40 (7 / 2) = "NAO IRRIGAR (Risco de Salinidade Alta)" :=
  (claim1_decideIrrigation_cases 20 20 40 (7 / 2)).1 (by norm_num) (by norm_num)

/-- C6: the cycle counter always equals the length of the sample list:
`collectSample` prepends one node and adds one to the counter, `clearList`
empties both, the processing step changes neither, and every reachable
state satisfies the equality. -/
theorem claim6_counter_eq_length :
    (∀ (s : SoilState) (r1 r2 r3 : Nat),
      (collectSample s r1 r2 r3).dataListHead.length = s.dataListHead.length + 1 ∧
      (collectSample s r1 r2 r3).sampleCount = s.sampleCount + 1) ∧
    (∀ s : SoilState, (clearList s).dataListHead = [] ∧ (clearList s).sampleCount = 0) ∧
    (∀ s : SoilState, (processAndReportData s).1.dataListHead = s.dataListHead ∧
      (processAndReportData s).1.sampleCount = s.sampleCount) ∧
    (∀ s : SoilState, Reachable s → s.sampleCount = s.dataListHead.length) := by
  refine ⟨fun s r1 r2 r3 => ⟨by simp [collectSample], rfl⟩,
    fun s => ⟨rfl, rfl⟩,
    fun s => ⟨by rw [process_fst], by rw [process_fst]⟩,
    fun s h => ?_⟩
  induction h with
  | init => rfl
  | collect r1 r2 r3 _ ih => simp [collectSample, ih]
  | process _ ih => rwa [process_fst]
  | clear _ _ => rfl
  | tick t _ ih => simpa using ih

/-- Witness for C6: two collected samples from the initial state give
counter 2 and length 2. -/
theorem claim6_counter_eq_length_witness :
    (collectSample (collectSample ⟨[], 0, 0⟩ 1 2 3) 4 5 6).sampleCount =
      (collectSample (collectSample ⟨[], 0, 0⟩ 1 2 3) 4 5 6).dataListHead.length :=
  claim6_counter_eq_length.2.2.2 _
    (Reachable.collect 4 5 6 (Reachable.collect 1 2 3 Reachable.init))

/-- C7: when the counter differs from 16, the processing step is a silent
no-op: returned state identical, no report emitted. -/
theorem claim7_process_noop (s : SoilState) (h : s.sampleCount ≠ SAMPLES_PER_CYCLE) :
    processAndReportData s = (s, none) := by
  simp [processAndReportData, h]

/-- Witness for C7 at a state with 5 samples collected. -/
theorem claim7_process_noop_witness :
    processAndReportData ⟨[⟨20, 50, 2⟩], 5, 0⟩ = (⟨[⟨20, 50, 2⟩], 5, 0⟩, none) :=
  claim7_process_noop _ (by norm_num [SAMPLES_PER_CYCLE])

/-- C9: the processing step is read-only: for every starting state the
returned state (head list, samples and counter, timestamp) is exactly the
input state; the extremes are only skipped in the sums, never unlinked. -/
theorem claim9_process_readonly (s : SoilState) : (processAndReportData s).1 = s :=
  process_fst s

/-- C10: for every pseudo-random draw the three simulated readings lie in
their fixed ranges, and hence every sample in a reachable state's list lies
in those ranges. -/
theorem claim10_reading_bounds :
    (∀ r : Nat, 15 ≤ readSimulatedTemperature r ∧ readSimulatedTemperature r ≤ 35) ∧
    (∀ r : Nat, 30 ≤ readSimulatedHumidity r ∧ readSimulatedHumidity r ≤ 90) ∧
    (∀ r : Nat, 1 / 2 ≤ readSimulatedSalinity r ∧ readSimulatedSalinity r ≤ 4) ∧
    (∀ s : SoilState, Reachable s → ∀ x ∈ s.dataListHead,
      (15 ≤ x.temperature ∧ x.temperature ≤ 35) ∧
      (30 ≤ x.humidity ∧ x.humidity ≤ 90) ∧
      (1 / 2 ≤ x.salinity ∧ x.salinity ≤ 4)) := by
  refine ⟨readSimulatedTemperature_bounds, readSimulatedHumidity_bounds,
    readSimulatedSalinity_bounds, fun s h => ?_⟩
  induction h with
  | init => intro x hx; cases hx
  | collect r1 r2 r3 _ ih =>
    intro x hx
    rcases List.mem_cons.mp hx with hx | hx
    · subst hx
      exact ⟨readSimulatedTemperature_bounds r1, readSimulatedHumidity_bounds r2,
        readSimulatedSalinity_bounds r3⟩
    · exact ih x hx
  | process _ ih => rwa [process_fst]
  | clear _ _ => intro x hx; cases hx
  | tick t _ ih => simpa using ih

/-- Witness for C10: the sample produced by draws `(0, 0, 0)` is in range. -/
theorem claim10_reading_bounds_witness :
    (15 ≤ (SampleData.mk (readSimulatedTemperature 0) (readSimulatedHumidity 0)
        (readSimulatedSalinity 0)).temperature ∧
      (SampleData.mk (readSimulatedTemperature 0) (readSimulatedHumidity 0)
        (readSimulatedSalinity 0)).temperature ≤ 35) ∧
    (30 ≤ (SampleData.mk (readSimulatedTemperature 0) (readSimulatedHumidity 0)
        (readSimulatedSalinity 0)).humidity ∧
      (SampleData.mk (readSimulatedTemperature 0) (readSimulatedHumidity 0)
        (readSimulatedSalinity 0)).humidity ≤ 90) ∧
    (1 / 2 ≤ (SampleData.mk (readSimulatedTemperature 0) (readSimulatedHumidity 0)
        (readSimulatedSalinity 0)).salinity ∧
      (SampleData.mk (readSimulatedTemperature 0) (readSimulatedHumidity 0)
        (readSimulatedSalinity 0)).salinity ≤ 4) :=
  claim10_reading_bounds.2.2.2 (collectSample ⟨[], 0, 0⟩ 0 0 0)
    (Reachable.collect 0 0 0 Reachable.init) _ (List.mem_cons_self _ _)

example : decideIrrigation 20 40 (7 / 2) = "NAO IRRIGAR (Risco de Salinidade Alta)" := by
  norm_num [decideIrrigation]

example : sumSkip [⟨5, 1, 0⟩, ⟨3, 2, 0⟩, ⟨9, 3, 0⟩, ⟨4, 4, 0⟩] 0 1 2 (0, 0, 0, 0) = (9, 5, 0, 2) := by
  norm_num [sumSkip]

example :
    (processAndReportData ⟨[⟨5, 1, 0⟩, ⟨3, 2, 0⟩, ⟨9, 3, 0⟩, ⟨4, 4, 0⟩], 4, 0⟩).2 = none := by
  norm_num [processAndReportData, SAMPLES_PER_CYCLE]

/-- C2: with a unique strict minimum at `im` and a unique strict maximum at
`ix` (distinct), the processing step excludes exactly those two samples,
leaves 14, and reports the arithmetic means over the 14 remaining
samples. -/
theorem claim2_unique_extremes (s : SoilState) (im ix : Nat)
    (hcnt : s.sampleCount = 16) (hlen : s.dataListHead.length = 16)
    (him : im < 16) (hix : ix < 16) (hne2 : im ≠ ix)
    (hmin : ∀ j, j < 16 → j ≠ im →
      (sampleAt s.dataListHead im).temperature < (sampleAt s.dataListHead j).temperature)
    (hmax : ∀ j, j < 16 → j ≠ ix →
      (sampleAt s.dataListHead j).temperature < (sampleAt s.dataListHead ix).temperature) :
    findExtremes s.dataListHead = (im, ix) ∧
    ∃ rep, (processAndReportData s).2 = some rep ∧
      rep.remainingCount = 14 ∧
      rep.avgTemp = Finset.sum (Finset.range 16 \ {im, ix})
        (fun j => (sampleAt s.dataListHead j).temperature) / 14 ∧
      rep.avgHum = Finset.sum (Finset.range 16 \ {im, ix})
        (fun j => (sampleAt s.dataListHead j).humidity) / 14 ∧
      rep.avgSal = Finset.sum (Finset.range 16 \ {im, ix})
        (fun j => (sampleAt s.dataListHead j).salinity) / 14 := by
  obtain ⟨hfe, hrep⟩ :=
    process_unique_spec s im ix hcnt hlen him hix hne2 hmin hmax
  exact ⟨hfe, _, hrep, rfl, rfl, rfl, rfl⟩

set_option maxRecDepth 8000 in
/-- Witness for C2: sixteen samples with temperatures 0..15; the scan picks
index 0 as minimum and index 15 as maximum. -/
theorem claim2_unique_extremes_witness :
    findExtremes
      [⟨0, 50, 2⟩, ⟨1, 50, 2⟩, ⟨2, 50, 2⟩, ⟨3, 50, 2⟩,
       ⟨4, 50, 2⟩, ⟨5, 50, 2⟩, ⟨6, 50, 2⟩, ⟨7, 50, 2⟩,
       ⟨8, 50, 2⟩, ⟨9, 50, 2⟩, ⟨10, 50, 2⟩, ⟨11, 50, 2⟩,
       ⟨12, 50, 2⟩, ⟨13, 50, 2⟩, ⟨14, 50, 2⟩, ⟨15, 50, 2⟩] = (0, 15) :=
  (claim2_unique_extremes
    ⟨[⟨0, 50, 2⟩, ⟨1, 50, 2⟩, ⟨2, 50, 2⟩, ⟨3, 50, 2⟩,
      ⟨4, 50, 2⟩, ⟨5, 50, 2⟩, ⟨6, 50, 2⟩, ⟨7, 50, 2⟩,
      ⟨8, 50, 2⟩, ⟨9, 50, 2⟩, ⟨10, 50, 2⟩, ⟨11, 50, 2⟩,
      ⟨12, 50, 2⟩, ⟨13, 50, 2⟩, ⟨14, 50, 2⟩, ⟨15, 50, 2⟩], 16, 0⟩
    0 15 rfl rfl (by norm_num) (by norm_num) (by norm_num)
    (by decide) (by decide)).1

/-- The surviving index set when the scan's min and max coincide: one index
is removed and 15 remain. -/
lemma remainingIdx_same (l : List SampleData) (hlen : l.length = 16)
    (hsame : (findExtremes l).1 = (findExtremes l).2) :
    remainingIdx l = Finset.range 16 \ {(findExtremes l).1} ∧
    (remainingIdx l).card = 15 := by
  have hnil : l ≠ [] := by
    intro h
    rw [h] at hlen
    simp at hlen
  have hm : (findExtremes l).1 < 16 := by
    have := (findExtremes_spec l hnil).1
    omega
  have hset : remainingIdx l = Finset.range 16 \ {(findExtremes l).1} := by
    unfold remainingIdx
    rw [hlen, ← hsame, Finset.pair_eq_singleton]
  refine ⟨hset, ?_⟩
  rw [hset, Finset.card_sdiff (by simp [Finset.mem_range, hm]), Finset.card_range,
    Finset.card_singleton]

/-- C3: when the scan's min node and max node are the same single node, the
identity-based exclusion removes just that one sample: 15 remain and the
averages are over those 15. -/
theorem claim3_min_eq_max (s : SoilState)
    (hcnt : s.sampleCount = 16) (hlen : s.dataListHead.length = 16)
    (hsame : (findExtremes s.dataListHead).1 = (findExtremes s.dataListHead).2) :
    ∃ rep, (processAndReportData s).2 = some rep ∧
      rep.remainingCount = 15 ∧
      rep.avgTemp = Finset.sum (Finset.range 16 \ {(findExtremes s.dataListHead).1})
        (fun j => (sampleAt s.dataListHead j).temperature) / 15 ∧
      rep.avgHum = Finset.sum (Finset.range 16 \ {(findExtremes s.dataListHead).1})
        (fun j => (sampleAt s.dataListHead j).humidity) / 15 ∧
      rep.avgSal = Finset.sum (Finset.range 16 \ {(findExtremes s.dataListHead).1})
        (fun j => (sampleAt s.dataListHead j).salinity) / 15 := by
  obtain ⟨hset, hcard⟩ := remainingIdx_same s.dataListHead hlen hsame
  have hcard' : (Finset.range 16 \ {(findExtremes s.dataListHead).1}).card = 15 :=
    hset ▸ hcard
  refine ⟨_, process_report s hcnt, ?_, ?_, ?_, ?_⟩
  · exact hcard
  · show avgOf s.dataListHead SampleData.temperature = _
    rw [avgOf, hset, hcard']
    norm_num
  · show avgOf s.dataListHead SampleData.humidity = _
    rw [avgOf, hset, hcard']
    norm_num
  · show avgOf s.dataListHead SampleData.salinity = _
    rw [avgOf, hset, hcard']
    norm_num

set_option maxRecDepth 8000 in
/-- Witness for C3: sixteen identical samples; min and max are both the
list head, 15 samples survive. -/
theorem claim3_min_eq_max_witness :
    ∃ rep, (processAndReportData ⟨List.replicate 16 ⟨20, 50, 2⟩, 16, 0⟩).2 = some rep ∧
      rep.remainingCount = 15 ∧
      rep.avgTemp = Finset.sum
        (Finset.range 16 \ {(findExtremes (List.replicate 16 ⟨20, 50, 2⟩)).1})
        (fun j => (sampleAt (List.replicate 16 ⟨20, 50, 2⟩) j).temperature) / 15 ∧
      rep.avgHum = Finset.sum
        (Finset.range 16 \ {(findExtremes (List.replicate 16 ⟨20, 50, 2⟩)).1})
        (fun j => (sampleAt (List.replicate 16 ⟨20, 50, 2⟩) j).humidity) / 15 ∧
      rep.avgSal = Finset.sum
        (Finset.range 16 \ {(findExtremes (List.replicate 16 ⟨20, 50, 2⟩)).1})
        (fun j => (sampleAt (List.replicate 16 ⟨20, 50, 2⟩) j).salinity) / 15 :=
  claim3_min_eq_max ⟨List.replicate 16 ⟨20, 50, 2⟩, 16, 0⟩ rfl (by simp) rfl

/-- C5: under counter 16 and 16 buffered samples, the remaining count is 14
or 15, never 0, so the three divisions by it are not divisions by zero. -/
theorem claim5_no_division_by_zero (s : SoilState)
    (hcnt : s.sampleCount = 16) (hlen : s.dataListHead.length = 16) :
    ∃ rep, (processAndReportData s).2 = some rep ∧
      (rep.remainingCount = 14 ∨ rep.remainingCount = 15) ∧
      ((rep.remainingCount : ℚ) ≠ 0) := by
  have hnil : s.dataListHead ≠ [] := by
    intro h
    rw [h] at hlen
    simp at hlen
  obtain ⟨h1, h2, -, -, -, -⟩ := findExtremes_spec s.dataListHead hnil
  rw [hlen] at h1 h2
  have hcard : (remainingIdx s.dataListHead).card = 14 ∨
      (remainingIdx s.dataListHead).card = 15 := by
    unfold remainingIdx
    rw [hlen]
    by_cases hmm : (findExtremes s.dataListHead).1 = (findExtremes s.dataListHead).2
    · right
      rw [hmm, card_sdiff_same h2]
    · left
      rw [card_sdiff_pair h1 h2 hmm]
  refine ⟨_, process_report s hcnt, hcard, ?_⟩
  show (((remainingIdx s.dataListHead).card : Nat) : ℚ) ≠ 0
  rcases hcard with h | h <;> rw [h] <;> norm_num

/-- Witness for C5 on sixteen identical samples. -/
theorem claim5_no_division_by_zero_witness :
    ∃ rep, (processAndReportData ⟨List.replicate 16 ⟨20, 50, 2⟩, 16, 0⟩).2 = some rep ∧
      (rep.remainingCount = 14 ∨ rep.remainingCount = 15) ∧
      ((rep.remainingCount : ℚ) ≠ 0) :=
  claim5_no_division_by_zero ⟨List.replicate 16 ⟨20, 50, 2⟩, 16, 0⟩ rfl (by simp)

/-- C8: on a non-empty list the scan returns in-range indices; the min
component attains the minimum temperature and every earlier index is
strictly larger, i.e. the first node attaining the minimum wins — and
symmetrically for the max component. -/
theorem claim8_first_encountered_wins (l : List SampleData) (h : l ≠ []) :
    (findExtremes l).1 < l.length ∧ (findExtremes l).2 < l.length ∧
    (∀ j, j < l.length →
      (sampleAt l (findExtremes l).1).temperature ≤ (sampleAt l j).temperature) ∧
    (∀ j, j < (findExtremes l).1 →
      (sampleAt l (findExtremes l).1).temperature < (sampleAt l j).temperature) ∧
    (∀ j, j < l.length →
      (sampleAt l j).temperature ≤ (sampleAt l (findExtremes l).2).temperature) ∧
    (∀ j, j < (findExtremes l).2 →
      (sampleAt l j).temperature < (sampleAt l (findExtremes l).2).temperature) :=
  findExtremes_spec l h

/-- Witness for C8 on a two-element tie: the scan's choices are in range. -/
theorem claim8_first_encountered_wins_witness :
    (findExtremes [⟨5, 40, 1⟩, ⟨5, 60, 3⟩]).1 < 2 ∧
    (findExtremes [⟨5, 40, 1⟩, ⟨5, 60, 3⟩]).2 < 2 :=
  ⟨(claim8_first_encountered_wins [⟨5, 40, 1⟩, ⟨5, 60, 3⟩] (by simp)).1,
   (claim8_first_encountered_wins [⟨5, 40, 1⟩, ⟨5, 60, 3⟩] (by simp)).2.1⟩

/-- The skipping loop on the empty list returns the accumulator. -/
lemma sumSkip_nil (i mn mx : Nat) (acc : ℚ × ℚ × ℚ × Nat) :
    sumSkip [] i mn mx acc = acc := rfl

/-- One kept iteration of the skipping loop. -/
lemma sumSkip_cons_keep (x : SampleData) (xs : List SampleData) (i mn mx : Nat)
    (acc : ℚ × ℚ × ℚ × Nat) (h1 : i ≠ mn) (h2 : i ≠ mx) :
    sumSkip (x :: xs) i mn mx acc =
      sumSkip xs (i + 1) mn mx
        (acc.1 + x.temperature, acc.2.1 + x.humidity, acc.2.2.1 + x.salinity,
          acc.2.2.2 + 1) := by
  obtain ⟨st, sh, ss, c⟩ := acc
  simp only [sumSkip]
  rw [if_pos ⟨h1, h2⟩]

/-- One skipped iteration of the skipping loop. -/
lemma sumSkip_cons_skip (x : SampleData) (xs : List SampleData) (i mn mx : Nat)
    (acc : ℚ × ℚ × ℚ × Nat) (h : i = mn ∨ i = mx) :
    sumSkip (x :: xs) i mn mx acc = sumSkip xs (i + 1) mn mx acc := by
  obtain ⟨st, sh, ss, c⟩ := acc
  simp only [sumSkip]
  rw [if_neg]
  tauto

/-- Evaluation helper: with counter 16 and given scan result and sums, the
report follows. -/
lemma process_eq_of (s : SoilState) (mn mx : Nat) (st sh ss : ℚ) (c : Nat)
    (hcnt : s.sampleCount = 16)
    (hfe : findExtremes s.dataListHead = (mn, mx))
    (hsum : sumSkip s.dataListHead 0 mn mx (0, 0, 0, 0) = (st, sh, ss, c)) :
    (processAndReportData s).2 = some
      ⟨st / (c : ℚ), sh / (c : ℚ), ss / (c : ℚ),
       decideIrrigation (st / (c : ℚ)) (sh / (c : ℚ)) (ss / (c : ℚ)), c⟩ := by
  have hguard : ¬(s.sampleCount ≠ SAMPLES_PER_CYCLE) := by
    simp [hcnt, SAMPLES_PER_CYCLE]
  simp only [processAndReportData, if_neg hguard, hfe, hsum]

set_option maxRecDepth 8000 in
set_option maxHeartbeats 2000000 in
/-- C4 counterexample: two sample lists that are permutations of each other
(the two tied maximum-temperature samples swapped) on which the processing
step reports different average humidities: the first-encountered tie-break
excludes a different sample in each ordering. -/
theorem claim4_perm_counterexample :
    ∃ r1 r2 : Report,
      (processAndReportData ⟨([⟨99, 30, 2⟩, ⟨99, 90, 2⟩,
        ⟨1, 50, 2⟩, ⟨2, 50, 2⟩, ⟨3, 50, 2⟩, ⟨4, 50, 2⟩, ⟨5, 50, 2⟩, ⟨6, 50, 2⟩,
        ⟨7, 50, 2⟩, ⟨8, 50, 2⟩, ⟨9, 50, 2⟩, ⟨10, 50, 2⟩, ⟨11, 50, 2⟩, ⟨12, 50, 2⟩,
        ⟨13, 50, 2⟩, ⟨14, 50, 2⟩] : List SampleData), 16, 0⟩).2 = some r1 ∧
      (processAndReportData ⟨([⟨99, 90, 2⟩, ⟨99, 30, 2⟩,
        ⟨1, 50, 2⟩, ⟨2, 50, 2⟩, ⟨3, 50, 2⟩, ⟨4, 50, 2⟩, ⟨5, 50, 2⟩, ⟨6, 50, 2⟩,
        ⟨7, 50, 2⟩, ⟨8, 50, 2⟩, ⟨9, 50, 2⟩, ⟨10, 50, 2⟩, ⟨11, 50, 2⟩, ⟨12, 50, 2⟩,
        ⟨13, 50, 2⟩, ⟨14, 50, 2⟩] : List SampleData), 16, 0⟩).2 = some r2 ∧
      List.Perm
        ([⟨99, 30, 2⟩, ⟨99, 90, 2⟩,
         ⟨1, 50, 2⟩, ⟨2, 50, 2⟩, ⟨3, 50, 2⟩, ⟨4, 50, 2⟩, ⟨5, 50, 2⟩, ⟨6, 50, 2⟩,
         ⟨7, 50, 2⟩, ⟨8, 50, 2⟩, ⟨9, 50, 2⟩, ⟨10, 50, 2⟩, ⟨11, 50, 2⟩, ⟨12, 50, 2⟩,
         ⟨13, 50, 2⟩, ⟨14, 50, 2⟩] : List SampleData)
        ([⟨99, 90, 2⟩, ⟨99, 30, 2⟩,
         ⟨1, 50, 2⟩, ⟨2, 50, 2⟩, ⟨3, 50, 2⟩, ⟨4, 50, 2⟩, ⟨5, 50, 2⟩, ⟨6, 50, 2⟩,
         ⟨7, 50, 2⟩, ⟨8, 50, 2⟩, ⟨9, 50, 2⟩, ⟨10, 50, 2⟩, ⟨11, 50, 2⟩, ⟨12, 50, 2⟩,
         ⟨13, 50, 2⟩, ⟨14, 50, 2⟩] : List SampleData) ∧
      r1.avgHum ≠ r2.avgHum := by
  refine ⟨⟨203 / 14, 740 / 14, 28 / 14,
      decideIrrigation (203 / 14) (740 / 14) (28 / 14), 14⟩,
    ⟨203 / 14, 680 / 14, 28 / 14,
      decideIrrigation (203 / 14) (680 / 14) (28 / 14), 14⟩, ?_, ?_, ?_, ?_⟩
  · exact process_eq_of _ 2 0 203 740 28 14 rfl rfl
      (by norm_num [sumSkip_cons_keep, sumSkip_cons_skip, sumSkip_nil])
  · exact process_eq_of _ 2 0 203 680 28 14 rfl rfl
      (by norm_num [sumSkip_cons_keep, sumSkip_cons_skip, sumSkip_nil])
  · exact List.Perm.swap _ _ _
  · show (740 : ℚ) / 14 ≠ 680 / 14
    norm_num

/-- Bridge between `sampleAt` and bracket indexing. -/
lemma sampleAt_eq_getElem (l : List SampleData) (n : Nat) (hn : n < l.length) :
    sampleAt l n = l[n] := List.getD_eq_getElem l defaultSample hn

/-- In-range `sampleAt` values are members of the list. -/
lemma sampleAt_mem (l : List SampleData) (n : Nat) (hn : n < l.length) :
    sampleAt l n ∈ l := by
  rw [sampleAt_eq_getElem l n hn]
  exact List.getElem_mem hn

/-- The masked sum over the surviving indices equals the whole-list sum
minus the two excluded samples. -/
lemma sdiff_pair_sum (l : List SampleData) (hlen : l.length = 16) {im ix : Nat}
    (him : im < 16) (hix : ix < 16) (hne2 : im ≠ ix) (f : SampleData → ℚ) :
    Finset.sum (Finset.range 16 \ {im, ix}) (fun j => f (sampleAt l j)) =
      (l.map f).sum - f (sampleAt l im) - f (sampleAt l ix) := by
  have hsub : ({im, ix} : Finset Nat) ⊆ Finset.range 16 := by
    intro j hj
    simp only [Finset.mem_insert, Finset.mem_singleton] at hj
    rcases hj with h | h <;> simp [h, Finset.mem_range, him, hix]
  have htotal : Finset.sum (Finset.range 16) (fun j => f (sampleAt l j)) = (l.map f).sum := by
    rw [← hlen, sum_range_sampleAt]
  have h2 : Finset.sum (Finset.range 16 \ {im, ix}) (fun j => f (sampleAt l j)) +
      Finset.sum ({im, ix} : Finset Nat) (fun j => f (sampleAt l j)) =
      Finset.sum (Finset.range 16) (fun j => f (sampleAt l j)) :=
    Finset.sum_sdiff hsub
  rw [Finset.sum_pair hne2] at h2
  linarith

/-- Two permuted lists with unique strict minima have the same minimum
sample. -/
lemma unique_min_sample_eq (l l2 : List SampleData) (hperm : l.Perm l2)
    (hlen : l.length = 16) (hlen2 : l2.length = 16) (im im2 : Nat)
    (him : im < 16) (him2 : im2 < 16)
    (hmin : ∀ j, j < 16 → j ≠ im →
      (sampleAt l im).temperature < (sampleAt l j).temperature)
    (hmin2 : ∀ j, j < 16 → j ≠ im2 →
      (sampleAt l2 im2).temperature < (sampleAt l2 j).temperature) :
    sampleAt l im = sampleAt l2 im2 := by
  have hmem : sampleAt l2 im2 ∈ l := by
    rw [hperm.mem_iff]
    exact sampleAt_mem l2 im2 (by omega)
  obtain ⟨k, hk, hkeq⟩ := List.mem_iff_getElem.mp hmem
  have hkgd : sampleAt l k = sampleAt l2 im2 := by
    rw [sampleAt_eq_getElem l k hk]
    exact hkeq
  by_cases hkim : k = im
  · rw [← hkgd, hkim]
  · have hlt1 := hmin k (by omega) hkim
    rw [hkgd] at hlt1
    have hmem2 : sampleAt l im ∈ l2 := by
      rw [← hperm.mem_iff]
      exact sampleAt_mem l im (by omega)
    obtain ⟨k2, hk2, hk2eq⟩ := List.mem_iff_getElem.mp hmem2
    have hk2gd : sampleAt l2 k2 = sampleAt l im := by
      rw [sampleAt_eq_getElem l2 k2 hk2]
      exact hk2eq
    by_cases hk2im : k2 = im2
    · subst hk2im
      exact hk2gd.symm
    · have hlt2 := hmin2 k2 (by omega) hk2im
      rw [hk2gd] at hlt2
      linarith

/-- Two permuted lists with unique strict maxima have the same maximum
sample. -/
lemma unique_max_sample_eq (l l2 : List SampleData) (hperm : l.Perm l2)
    (hlen : l.length = 16) (hlen2 : l2.length = 16) (ix ix2 : Nat)
    (hix : ix < 16) (hix2 : ix2 < 16)
    (hmax : ∀ j, j < 16 → j ≠ ix →
      (sampleAt l j).temperature < (sampleAt l ix).temperature)
    (hmax2 : ∀ j, j < 16 → j ≠ ix2 →
      (sampleAt l2 j).temperature < (sampleAt l2 ix2).temperature) :
    sampleAt l ix = sampleAt l2 ix2 := by
  have hmem : sampleAt l2 ix2 ∈ l := by
    rw [hperm.mem_iff]
    exact sampleAt_mem l2 ix2 (by omega)
  obtain ⟨k, hk, hkeq⟩ := List.mem_iff_getElem.mp hmem
  have hkgd : sampleAt l k = sampleAt l2 ix2 := by
    rw [sampleAt_eq_getElem l k hk]
    exact hkeq
  by_cases hkim : k = ix
  · rw [← hkgd, hkim]
  · have hlt1 := hmax k (by omega) hkim
    rw [hkgd] at hlt1
    have hmem2 : sampleAt l ix ∈ l2 := by
      rw [← hperm.mem_iff]
      exact sampleAt_mem l ix (by omega)
    obtain ⟨k2, hk2, hk2eq⟩ := List.mem_iff_getElem.mp hmem2
    have hk2gd : sampleAt l2 k2 = sampleAt l ix := by
      rw [sampleAt_eq_getElem l2 k2 hk2]
      exact hk2eq
    by_cases hk2im : k2 = ix2
    · subst hk2im
      exact hk2gd.symm
    · have hlt2 := hmax2 k2 (by omega) hk2im
      rw [hk2gd] at hlt2
      linarith

/-- C4 (amended): permutation invariance holds under the additional
hypothesis that both orderings have a unique strict minimum and a unique
strict maximum temperature (no ties among extremes): then the excluded
samples coincide and the whole report — averages, decision and remaining
count — is the same for both orderings. -/
theorem claim4_perm_invariance_amended (s s2 : SoilState) (im ix im2 ix2 : Nat)
    (hperm : s.dataListHead.Perm s2.dataListHead)
    (hcnt : s.sampleCount = 16) (hcnt2 : s2.sampleCount = 16)
    (hlen : s.dataListHead.length = 16)
    (him : im < 16) (hix : ix < 16) (hne2 : im ≠ ix)
    (him2 : im2 < 16) (hix2 : ix2 < 16) (hne2x : im2 ≠ ix2)
    (hmin : ∀ j, j < 16 → j ≠ im →
      (sampleAt s.dataListHead im).temperature <
        (sampleAt s.dataListHead j).temperature)
    (hmax : ∀ j, j < 16 → j ≠ ix →
      (sampleAt s.dataListHead j).temperature <
        (sampleAt s.dataListHead ix).temperature)
    (hmin2 : ∀ j, j < 16 → j ≠ im2 →
      (sampleAt s2.dataListHead im2).temperature <
        (sampleAt s2.dataListHead j).temperature)
    (hmax2 : ∀ j, j < 16 → j ≠ ix2 →
      (sampleAt s2.dataListHead j).temperature <
        (sampleAt s2.dataListHead ix2).temperature) :
    (processAndReportData s).2 = (processAndReportData s2).2 := by
  have hlen2 : s2.dataListHead.length = 16 := by
    rw [← hperm.length_eq]
    exact hlen
  obtain ⟨-, hrep⟩ := process_unique_spec s im ix hcnt hlen him hix hne2 hmin hmax
  obtain ⟨-, hrep2⟩ :=
    process_unique_spec s2 im2 ix2 hcnt2 hlen2 him2 hix2 hne2x hmin2 hmax2
  have htm := unique_min_sample_eq s.dataListHead s2.dataListHead hperm hlen hlen2
    im im2 him him2 hmin hmin2
  have htx := unique_max_sample_eq s.dataListHead s2.dataListHead hperm hlen hlen2
    ix ix2 hix hix2 hmax hmax2
  rw [hrep, hrep2,
    sdiff_pair_sum s.dataListHead hlen him hix hne2 SampleData.temperature,
    sdiff_pair_sum s.dataListHead hlen him hix hne2 SampleData.humidity,
    sdiff_pair_sum s.dataListHead hlen him hix hne2 SampleData.salinity,
    sdiff_pair_sum s2.dataListHead hlen2 him2 hix2 hne2x SampleData.temperature,
    sdiff_pair_sum s2.dataListHead hlen2 him2 hix2 hne2x SampleData.humidity,
    sdiff_pair_sum s2.dataListHead hlen2 him2 hix2 hne2x SampleData.salinity,
    htm, htx, (hperm.map SampleData.temperature).sum_eq,
    (hperm.map SampleData.humidity).sum_eq, (hperm.map SampleData.salinity).sum_eq]

set_option maxRecDepth 8000 in
/-- Witness for the amended C4: swapping the first two samples of a list
with sixteen distinct temperatures leaves the report unchanged. -/
theorem claim4_perm_invariance_amended_witness :
    (processAndReportData ⟨[⟨0, 50, 2⟩, ⟨1, 50, 2⟩, ⟨2, 50, 2⟩, ⟨3, 50, 2⟩,
      ⟨4, 50, 2⟩, ⟨5, 50, 2⟩, ⟨6, 50, 2⟩, ⟨7, 50, 2⟩,
      ⟨8, 50, 2⟩, ⟨9, 50, 2⟩, ⟨10, 50, 2⟩, ⟨11, 50, 2⟩,
      ⟨12, 50, 2⟩, ⟨13, 50, 2⟩, ⟨14, 50, 2⟩, ⟨15, 50, 2⟩], 16, 0⟩).2 =
    (processAndReportData ⟨[⟨1, 50, 2⟩, ⟨0, 50, 2⟩, ⟨2, 50, 2⟩, ⟨3, 50, 2⟩,
      ⟨4, 50, 2⟩, ⟨5, 50, 2⟩, ⟨6, 50, 2⟩, ⟨7, 50, 2⟩,
      ⟨8, 50, 2⟩, ⟨9, 50, 2⟩, ⟨10, 50, 2⟩, ⟨11, 50, 2⟩,
      ⟨12, 50, 2⟩, ⟨13, 50, 2⟩, ⟨14, 50, 2⟩, ⟨15, 50, 2⟩], 16, 3⟩).2 :=
  claim4_perm_invariance_amended _ _ 0 15 1 15
    (List.Perm.swap _ _ _) rfl rfl rfl
    (by norm_num) (by norm_num) (by norm_num)
    (by norm_num) (by norm_num) (by norm_num)
    (by decide) (by decide) (by decide) (by decide)
